import Mathlib

/-!
Shallow embedding of the OHLCV mirror service (`app.py`): the candle data
model, the completeness check, the CSV store operations, the per-symbol
fetch/flush loop of `fetch_worker`, the resampler, and the export
endpoint's symbol normalization, together with theorems settling the
specification claims about them.
-/

set_option autoImplicit false
set_option maxRecDepth 2000

/-- One OHLCV record.  `ts` is the bucket's opening instant in
milliseconds; prices and volume are exact decimals, embedded as
integers (integer-cent scaling). -/
structure Candle where
  ts : Nat
  o : Int
  h : Int
  l : Int
  c : Int
  v : Int
deriving DecidableEq, Repr, Inhabited

/-- Strict timestamp order on candles. -/
abbrev candLt (a b : Candle) : Prop := a.ts < b.ts

def dummyCandle : Candle := ⟨0, 0, 0, 0, 0, 0⟩

/-- One minute in milliseconds (`duration_ms = 60 * 1000` in `fetch_worker`). -/
def duration_ms : Nat := 60000

/-- Page size passed to `fetch_ohlcv` (`limit=1000`). -/
def page_limit : Nat := 1000

/-- `exchange.parse8601('2020-01-01 00:00:00')`. -/
def target_start_ms : Nat := 1577836800000

/-- `exchange.parse8601('2026-01-01 00:00:00')`. -/
def target_end_ms : Nat := 1767225600000

/-- Abstraction of the on-disk CSV file as seen by `is_file_complete`:
its byte size and the parse of its final line's first comma field
(`none` when the file has no parseable trailing timestamp). -/
structure FileInfo where
  size : Nat
  lastLine : Option Nat
deriving DecidableEq, Repr

/-- `is_file_complete` (app.py lines 41-71): true only when the file
exists, has at least 100 bytes, its last line parses to a timestamp,
and that timestamp is within 120000 ms of the target end.  Any parse
failure returns false. -/
def is_file_complete (file : Option FileInfo) (target_end : Nat) : Bool :=
  match file with
  | none => false
  | some fi =>
    if fi.size < 100 then false
    else
      match fi.lastLine with
      | none => false
      | some last_ts => decide (target_end - 120000 ≤ last_ts)

/-- The "last timestamp" probe over stored rows. -/
def probe_last (rows : List Candle) : Option Nat :=
  rows.getLast?.map Candle.ts

/-- `append_to_csv` (app.py lines 73-80): `to_csv(mode='a')` appends the
batch rows to the existing file; an empty batch is a no-op. -/
def append_to_csv (file data : List Candle) : List Candle :=
  if data.isEmpty then file else file ++ data

/-- `create_new_csv` (app.py lines 82-90): `to_csv(mode='w')` replaces
the file content with the batch rows; an empty batch is a no-op. -/
def create_new_csv (file data : List Candle) : List Candle :=
  if data.isEmpty then file else data

/-- The observable file states when a direct (non-atomic) append is
interrupted after `k` of the batch rows have reached the disk, for
each `k` from `0` to `data.length`: `to_csv(mode='a')` writes straight
into the destination file with no temporary name or rename step. -/
def appendCrashStates (file data : List Candle) : List (List Candle) :=
  (List.range (data.length + 1)).map (fun k => file ++ data.take k)

/-- Write mode of the next flush: `mode = 'write'` until the first
flush creates the file, `'append'` afterwards. -/
inductive WMode where
  | write
  | append
deriving DecidableEq, Repr

/-- State of one symbol's download loop: the fetch cursor
(`current_since`), the in-memory batch (`batch_data`), the flush mode,
and the rows durably in the file. -/
structure SyncState where
  cursor : Nat
  batch : List Candle
  mode : WMode
  file : List Candle
deriving DecidableEq, Repr

/-- Outcome of one iteration of the `while current_since < target_end_ms`
body: continue looping, break out, or a caught exception followed by a
fixed sleep (seconds) and a retry with unchanged state. -/
inductive StepResult where
  | next (s : SyncState)
  | halt (s : SyncState)
  | retry (delaySec : Nat) (s : SyncState)
deriving DecidableEq, Repr

def StepResult.state : StepResult → SyncState
  | .next s => s
  | .halt s => s
  | .retry _ s => s

/-- One iteration of the fetch loop (app.py lines 123-153), given the
exchange's response at the current cursor.  An empty page advances the
cursor by one page-width and stops if that reaches the target end; a
non-empty page is filtered to `ts < target_end`, stops if nothing
remains, otherwise extends the batch, moves the cursor to the last
returned timestamp plus one minute, and flushes at 50000 rows.  A
fetch exception is caught: sleep 5 seconds and retry with unchanged
state.  Store writes succeed in this variant; `fetchStepF` below
additionally models the caught flush-exception path of the same try
block. -/
def fetchStep (te : Nat) (s : SyncState) (resp : Except Unit (List Candle)) : StepResult :=
  match resp with
  | .error _ => .retry 5 s
  | .ok ohlcv =>
    if ohlcv.isEmpty then
      let c2 := s.cursor + page_limit * duration_ms
      if te ≤ c2 then .halt { s with cursor := c2 }
      else .next { s with cursor := c2 }
    else
      let filtered := ohlcv.filter (fun x => decide (x.ts < te))
      if filtered.isEmpty then .halt s
      else
        let batch2 := s.batch ++ filtered
        let c2 := (filtered.getLastD dummyCandle).ts + duration_ms
        if 50000 ≤ batch2.length then
          match s.mode with
          | .write => .next { cursor := c2, batch := [], mode := .append, file := create_new_csv s.file batch2 }
          | .append => .next { cursor := c2, batch := [], mode := .append, file := append_to_csv s.file batch2 }
        else .next { s with cursor := c2, batch := batch2 }

/-- The final flush after the loop (app.py lines 155-161): write any
remaining batch rows with the current mode and clear the batch.  The
write succeeds in this variant; `finalFlushF` below models that this
flush sits outside the loop's try block, so its exception propagates
uncaught. -/
def finalFlush (s : SyncState) : SyncState :=
  match s.mode with
  | .write => { s with file := create_new_csv s.file s.batch, batch := [] }
  | .append => { s with file := append_to_csv s.file s.batch, batch := [] }

/-- Result of running the download loop: final state, number of
exchange requests issued, the cursor of each request in order, and
whether the loop reached its exit condition within the given fuel. -/
structure LoopOut where
  state : SyncState
  calls : Nat
  requests : List Nat
  completed : Bool
deriving DecidableEq, Repr

/-- The `while current_since < target_end_ms` loop of `fetch_worker`,
fuelled to stay total (the Python loop has no iteration bound). -/
def runLoop (fetch : Nat → Except Unit (List Candle)) (te : Nat) : Nat → SyncState → LoopOut
  | 0, s => if s.cursor < te then ⟨s, 0, [], false⟩ else ⟨finalFlush s, 0, [], true⟩
  | fuel + 1, s =>
    if s.cursor < te then
      match fetchStep te s (fetch s.cursor) with
      | .halt s2 => ⟨finalFlush s2, 1, [s.cursor], true⟩
      | .next s2 =>
        let o := runLoop fetch te fuel s2
        ⟨o.state, o.calls + 1, s.cursor :: o.requests, o.completed⟩
      | .retry _ s2 =>
        let o := runLoop fetch te fuel s2
        ⟨o.state, o.calls + 1, s.cursor :: o.requests, o.completed⟩
    else ⟨finalFlush s, 0, [], true⟩

/-- Fresh-download start state (app.py lines 119-121): cursor at the
target start, empty batch, mode `'write'`, and no file rows (the file
was just deleted or never existed). -/
def initState (startMs : Nat) : SyncState :=
  { cursor := startMs, batch := [], mode := .write, file := [] }

/-- Per-symbol outcome of one pass of `fetch_worker`: whether the
symbol was skipped as complete, whether an existing file was deleted,
and the download loop's start cursor, start mode and run. -/
structure SymbolOutcome where
  skipped : Bool
  deleted : Bool
  startCursor : Nat
  startMode : WMode
  run : Option LoopOut
deriving DecidableEq, Repr

def SymbolOutcome.calls (o : SymbolOutcome) : Nat :=
  match o.run with
  | none => 0
  | some r => r.calls

def SymbolOutcome.requests (o : SymbolOutcome) : List Nat :=
  match o.run with
  | none => []
  | some r => r.requests

/-- One symbol's treatment in `fetch_worker` (app.py lines 99-164): if
`is_file_complete` holds the symbol is skipped with no network
activity; otherwise any existing file is deleted and a fresh download
runs from the target start in write mode. -/
def syncSymbol (fetch : Nat → Except Unit (List Candle)) (file : Option FileInfo)
    (ts te fuel : Nat) : SymbolOutcome :=
  if is_file_complete file te then
    { skipped := true, deleted := false, startCursor := ts, startMode := .write, run := none }
  else
    { skipped := false, deleted := file.isSome, startCursor := ts, startMode := .write,
      run := some (runLoop fetch te fuel (initState ts)) }

/-- Python strings, embedded as their character sequences. -/
abbrev PyStr := List Char

/-- The configured symbol list (app.py lines 22-26). -/
def SYMBOLS : List PyStr :=
  ["BTC/USDT".data, "ETH/USDT".data, "XRP/USDT".data, "SOL/USDT".data, "DOGE/USDT".data,
   "ADA/USDT".data, "BCH/USDT".data, "LINK/USDT".data, "XLM/USDT".data, "SUI/USDT".data,
   "AVAX/USDT".data, "LTC/USDT".data, "HBAR/USDT".data, "SHIB/USDT".data, "TON/USDT".data]

/-- `s.strip()`: drop leading and trailing whitespace. -/
def pyStrip (s : PyStr) : PyStr :=
  ((s.dropWhile Char.isWhitespace).reverse.dropWhile Char.isWhitespace).reverse

/-- `s.upper()`. -/
def pyUpper (s : PyStr) : PyStr := s.map Char.toUpper

/-- `s.lower()`. -/
def pyLower (s : PyStr) : PyStr := s.map Char.toLower

/-- `s.replace(old, new)` for one-character patterns. -/
def pyReplaceChar (s : PyStr) (old new : Char) : PyStr :=
  s.map (fun c => if c = old then new else c)

/-- `s.split('/')[0]`. -/
def baseOf (s : PyStr) : PyStr := s.takeWhile (fun c => !(c = '/'))

/-- The `SYMBOL_TO_FILE` filename for a symbol: base currency
lowercased plus `1m.csv` (app.py lines 29-31). -/
def fileOf (s : PyStr) : PyStr := pyLower (baseOf s) ++ "1m.csv".data

/-- One full pass of `fetch_worker` over all configured symbols, given
a per-symbol exchange and a per-symbol stored-file view. -/
def fetch_worker (fetchFor : PyStr → Nat → Except Unit (List Candle))
    (files : PyStr → Option FileInfo) (fuel : Nat) : List (PyStr × SymbolOutcome) :=
  SYMBOLS.map (fun sym => (sym, syncSymbol (fetchFor sym) (files sym) target_start_ms target_end_ms fuel))

/-- An exchange backed by a fixed list of available candles: a request
at cursor `c` returns the first `page_limit` available candles with
timestamp at least `c` (the upstream skips gaps and never errors). -/
def mkFetch (avail : List Candle) (c : Nat) : Except Unit (List Candle) :=
  .ok ((avail.filter (fun x => decide (c ≤ x.ts))).take page_limit)

/-- An exchange whose successful pages contain only candles at or
after the queried cursor, in strictly increasing timestamp order. -/
def GoodPages (fetch : Nat → Except Unit (List Candle)) : Prop :=
  ∀ c p, fetch c = Except.ok p → (∀ x ∈ p, c ≤ x.ts) ∧ p.Pairwise candLt

/-- An exchange that never errors and returns only candles at or after
the queried cursor. -/
def WellBehaved (fetch : Nat → Except Unit (List Candle)) : Prop :=
  ∀ c, ∃ p, fetch c = Except.ok p ∧ ∀ x ∈ p, c ≤ x.ts

/-- Loop invariant of one symbol's download: the durable rows followed
by the in-memory batch are strictly increasing in timestamp, all of
them lie strictly below the cursor, and in write mode the file has not
been created yet. -/
def stateInv (s : SyncState) : Prop :=
  (s.file ++ s.batch).Pairwise candLt ∧
  (∀ x ∈ s.file ++ s.batch, x.ts < s.cursor) ∧
  (s.mode = WMode.write → s.file = [])

/-- Start of the fixed-duration bucket containing `ts`: `resample`
floors the datetime index to a multiple of the target duration. -/
def bucketStart (d ts : Nat) : Nat := ts / d * d

/-- `foldl` of `max` over the `high` column, seeded with `a`. -/
def foldMaxH (a : Int) (xs : List Candle) : Int :=
  xs.foldl (fun b c => max b c.h) a

/-- `foldl` of `min` over the `low` column, seeded with `a`. -/
def foldMinL (a : Int) (xs : List Candle) : Int :=
  xs.foldl (fun b c => min b c.l) a

/-- Sum of the `volume` column. -/
def sumV (xs : List Candle) : Int :=
  xs.foldl (fun b c => b + c.v) 0

/-- The `agg` dictionary applied to one bucket's members (in file
order): `open` first, `high` max, `low` min, `close` last, `volume`
sum, timestamp the bucket start; an empty bucket aggregates to NaN
rows that `dropna` removes, i.e. to no output. -/
def aggBucket (b : Nat) : List Candle → Option Candle
  | [] => none
  | x :: xs =>
    some ⟨b, x.o, foldMaxH x.h xs, foldMinL x.l xs, ((x :: xs).getLastD x).c, sumV (x :: xs)⟩

/-- The rows of the base series that fall in the bucket starting at `b`. -/
def bucketMembers (d b : Nat) (rows : List Candle) : List Candle :=
  rows.filter (fun c => decide (bucketStart d c.ts = b))

/-- `resample_buffer` (app.py lines 168-218) for a fixed target
duration `d` ms: bucket the base rows by flooring their timestamps to
multiples of `d`, aggregate each non-empty bucket with
first/max/min/last/sum, and stamp each output row with its bucket
start.  This models the rules whose pandas bins are left-closed,
left-labeled and epoch-floored: the intraday `tf_map` entries and
`1D` (every duration dividing one day, where the default
origin of the first data day coincides with epoch alignment) and the
generic minute/hour fallbacks.  The `1w`, `1M` and `3d` rules behave
differently — see `resample_weekly` and `resample_startday` below. -/
def resample_buffer (d : Nat) (rows : List Candle) : List Candle :=
  ((rows.map (fun c => bucketStart d c.ts)).dedup).filterMap
    (fun b => aggBucket b (bucketMembers d b rows))

/-- Responses of the `/export` endpoint, abstracted to what the claims
need: the not-found error payload with the available symbol list, the
not-synced error, the direct 1m file response, and the resampled
response. -/
inductive ExportResponse where
  | errorNotFound (available : List PyStr)
  | errorNotSynced (sym : PyStr)
  | fileResponse (filename : PyStr)
  | resampled (filename : PyStr) (rows : List Candle)
deriving DecidableEq

/-- Symbol normalization of `export_data` (app.py lines 247-255):
strip and uppercase the query; if that is not a configured symbol,
retry with `-` and `_` replaced by `/`; otherwise fail. -/
def resolveSymbol (symbol : PyStr) : Option PyStr :=
  let sym := pyUpper (pyStrip symbol)
  if sym ∈ SYMBOLS then some sym
  else
    let normalized := pyReplaceChar (pyReplaceChar sym '-' '/') '_' '/'
    if normalized ∈ SYMBOLS then some normalized else none

/-- `export_data` (app.py lines 243-278) against an abstract read-only
file system mapping filenames to stored rows: resolve the symbol (or
return the not-found payload listing the available symbols), look up
the series file, and serve it directly for `1m` or resampled
otherwise. -/
def export_data (fs : PyStr → Option (List Candle)) (d : Nat)
    (symbol timeframe : PyStr) : ExportResponse :=
  match resolveSymbol symbol with
  | none => .errorNotFound SYMBOLS
  | some sym =>
    let filename := fileOf sym
    match fs filename with
    | none => .errorNotSynced sym
    | some rows =>
      if timeframe = "1m".data then .fileResponse filename
      else .resampled filename (resample_buffer d rows)

/-- State of one symbol's download loop in the fallible-store model:
as `SyncState`, plus the count of store write calls attempted so far,
which indexes the write-failure oracle. -/
structure SyncStateF where
  cursor : Nat
  batch : List Candle
  mode : WMode
  file : List Candle
  writes : Nat
deriving DecidableEq, Repr

/-- Outcome of one loop iteration in the fallible-store model. -/
inductive StepResultF where
  | next (s : SyncStateF)
  | halt (s : SyncStateF)
  | retry (delaySec : Nat) (s : SyncStateF)
deriving DecidableEq, Repr

/-- One iteration of the fetch loop with fallible store writes:
`writeOk n` says whether the n-th write call of this symbol's run
succeeds.  This mirrors the try block of app.py lines 124-153
faithfully: the batch is extended (line 136) and the cursor advanced
(line 137) before the flush is attempted (lines 140-148), so a flush
exception is caught like a fetch exception (sleep 5 seconds, loop
continues) but with the cursor already advanced past the fetched page
and the batch retained, and in write mode the switch to append mode
(line 143) has not yet happened. -/
def fetchStepF (te : Nat) (writeOk : Nat → Bool) (s : SyncStateF)
    (resp : Except Unit (List Candle)) : StepResultF :=
  match resp with
  | .error _ => .retry 5 s
  | .ok ohlcv =>
    if ohlcv.isEmpty then
      let c2 := s.cursor + page_limit * duration_ms
      if te ≤ c2 then .halt { s with cursor := c2 }
      else .next { s with cursor := c2 }
    else
      let filtered := ohlcv.filter (fun x => decide (x.ts < te))
      if filtered.isEmpty then .halt s
      else
        let batch2 := s.batch ++ filtered
        let c2 := (filtered.getLastD dummyCandle).ts + duration_ms
        if 50000 ≤ batch2.length then
          if writeOk s.writes then
            match s.mode with
            | .write => .next { cursor := c2, batch := [], mode := .append,
                                file := create_new_csv s.file batch2, writes := s.writes + 1 }
            | .append => .next { cursor := c2, batch := [], mode := .append,
                                 file := append_to_csv s.file batch2, writes := s.writes + 1 }
          else .retry 5 { cursor := c2, batch := batch2, mode := s.mode,
                          file := s.file, writes := s.writes + 1 }
        else .next { s with cursor := c2, batch := batch2 }

/-- The final flush (app.py lines 155-161) in the fallible-store
model.  This flush sits outside the loop's try block, so a write
exception here is not caught: it propagates out of the symbol's sync
as `Except.error`.  An empty batch issues no write call at all. -/
def finalFlushF (writeOk : Nat → Bool) (s : SyncStateF) : Except Unit SyncStateF :=
  if s.batch.isEmpty then .ok s
  else if writeOk s.writes then
    match s.mode with
    | .write => .ok { s with
        file := create_new_csv s.file s.batch, batch := [], writes := s.writes + 1 }
    | .append => .ok { s with
        file := append_to_csv s.file s.batch, batch := [], writes := s.writes + 1 }
  else .error ()

/-- Result of the fallible download loop when no uncaught exception
escaped. -/
structure LoopOutF where
  state : SyncStateF
  requests : List Nat
  completed : Bool
deriving DecidableEq, Repr

/-- The download loop with fallible store writes; an uncaught
final-flush exception is propagated as `Except.error`. -/
def runLoopF (fetch : Nat → Except Unit (List Candle)) (writeOk : Nat → Bool)
    (te : Nat) : Nat → SyncStateF → Except Unit LoopOutF
  | 0, s =>
    if s.cursor < te then .ok ⟨s, [], false⟩
    else (finalFlushF writeOk s).map (fun s2 => ⟨s2, [], true⟩)
  | fuel + 1, s =>
    if s.cursor < te then
      match fetchStepF te writeOk s (fetch s.cursor) with
      | .halt s2 => (finalFlushF writeOk s2).map (fun s3 => ⟨s3, [s.cursor], true⟩)
      | .next s2 => (runLoopF fetch writeOk te fuel s2).map
          (fun o => ⟨o.state, s.cursor :: o.requests, o.completed⟩)
      | .retry _ s2 => (runLoopF fetch writeOk te fuel s2).map
          (fun o => ⟨o.state, s.cursor :: o.requests, o.completed⟩)
    else (finalFlushF writeOk s).map (fun s2 => ⟨s2, [], true⟩)

/-- Fresh-download start state in the fallible-store model. -/
def initStateF (startMs : Nat) : SyncStateF :=
  { cursor := startMs, batch := [], mode := .write, file := [], writes := 0 }

deriving instance DecidableEq for Except

/-- Per-symbol outcome in the fallible-store model. -/
structure SymbolOutcomeF where
  skipped : Bool
  deleted : Bool
  run : Option LoopOutF
deriving DecidableEq, Repr

/-- One symbol's treatment in the fallible-store model: an uncaught
exception from the final flush escapes as `Except.error`. -/
def syncSymbolF (fetch : Nat → Except Unit (List Candle)) (writeOk : Nat → Bool)
    (file : Option FileInfo) (ts te fuel : Nat) : Except Unit SymbolOutcomeF :=
  if is_file_complete file te then
    .ok { skipped := true, deleted := false, run := none }
  else
    (runLoopF fetch writeOk te fuel (initStateF ts)).map
      (fun o => { skipped := false, deleted := file.isSome, run := some o })

/-- The `for symbol in SYMBOLS` loop of `fetch_worker` over a given
symbol list, in the fallible-store model: the for loop has no
exception handler, so an uncaught exception from one symbol's sync
terminates the whole pass and later symbols are not attempted; the
Bool records such an abort. -/
def runSymbols (fetchFor : PyStr → Nat → Except Unit (List Candle))
    (writeOkFor : PyStr → Nat → Bool) (files : PyStr → Option FileInfo)
    (fuel : Nat) : List PyStr → List (PyStr × SymbolOutcomeF) × Bool
  | [] => ([], false)
  | sym :: rest =>
    match syncSymbolF (fetchFor sym) (writeOkFor sym) (files sym)
        target_start_ms target_end_ms fuel with
    | .error _ => ([], true)
    | .ok out =>
      let r := runSymbols fetchFor writeOkFor files fuel rest
      ((sym, out) :: r.1, r.2)

/-- One full pass of `fetch_worker` in the fallible-store model. -/
def fetch_workerF (fetchFor : PyStr → Nat → Except Unit (List Candle))
    (writeOkFor : PyStr → Nat → Bool) (files : PyStr → Option FileInfo)
    (fuel : Nat) : List (PyStr × SymbolOutcomeF) × Bool :=
  runSymbols fetchFor writeOkFor files fuel SYMBOLS

/-- One day in milliseconds. -/
def oneDay_ms : Nat := 86400000

/-- The right bin edge that the pandas weekly rule `W` (anchored on
Sunday, right-closed and right-labeled) assigns to a candle at `ts`:
the earliest Sunday midnight at or after `ts`.  Epoch day 3
(1970-01-04) was a Sunday. -/
def weekLabel (ts : Nat) : Nat :=
  3 * oneDay_ms + (ts + 4 * oneDay_ms - 1) / (7 * oneDay_ms) * (7 * oneDay_ms)

/-- The `1w` path of the resampler (`tf_map` sends `1w` to pandas
`1W`): right-closed weekly bins whose label — written into the
timestamp column at app.py line 203 — is the bin END, a Sunday
midnight, not the bin start. -/
def resample_weekly (rows : List Candle) : List Candle :=
  ((rows.map (fun c => weekLabel c.ts)).dedup).filterMap
    (fun b => aggBucket b (rows.filter (fun c => decide (weekLabel c.ts = b))))

/-- Bucket start relative to an anchoring origin, as pandas computes
bins for rules resampled with its default origin of the series' first
day. -/
def originBucketStart (d origin ts : Nat) : Nat := origin + (ts - origin) / d * d

/-- The `3d` path of the resampler: pandas anchors `3D` bins at
midnight of the series' first day (its default resample origin), not
at epoch multiples of three days, and labels them with the bin
start relative to that anchor. -/
def resample_startday (d : Nat) (rows : List Candle) : List Candle :=
  let origin := bucketStart oneDay_ms ((rows.headD dummyCandle).ts)
  ((rows.map (fun c => originBucketStart d origin c.ts)).dedup).filterMap
    (fun b => aggBucket b (rows.filter (fun c => decide (originBucketStart d origin c.ts = b))))

lemma getLastD_mem (l : List Candle) (d : Candle) (h : l ≠ []) : l.getLastD d ∈ l := by
  induction l generalizing d with
  | nil => exact absurd rfl h
  | cons a t ih =>
    rw [List.getLastD_cons]
    rcases eq_or_ne t [] with ht | ht
    · subst ht; simp [List.getLastD_nil]
    · exact List.mem_cons_of_mem a (ih a ht)

lemma ts_le_getLastD (l : List Candle) (d : Candle) (hp : l.Pairwise candLt) :
    ∀ x ∈ l, x.ts ≤ (l.getLastD d).ts := by
  induction l generalizing d with
  | nil => intro x hx; cases hx
  | cons a t ih =>
    intro x hx
    rw [List.getLastD_cons]
    rcases List.mem_cons.mp hx with rfl | hxt
    · rcases eq_or_ne t [] with ht | ht
      · subst ht; simp [List.getLastD_nil]
      · exact le_of_lt ((List.pairwise_cons.mp hp).1 _ (getLastD_mem t x ht))
    · exact ih a (List.pairwise_cons.mp hp).2 x hxt

lemma head?_append_left (l l' : List Candle) (a : Candle) (h : l.head? = some a) :
    (l ++ l').head? = some a := by
  cases l with
  | nil => cases h
  | cons b t => simpa using h

lemma le_foldMaxH (a : Int) (xs : List Candle) : a ≤ foldMaxH a xs := by
  induction xs generalizing a with
  | nil => exact le_refl a
  | cons c t ih => exact le_trans (le_max_left a c.h) (ih (max a c.h))

lemma mem_le_foldMaxH (xs : List Candle) : ∀ (a : Int), ∀ x ∈ xs, x.h ≤ foldMaxH a xs := by
  induction xs with
  | nil => intro a x hx; cases hx
  | cons c t ih =>
    intro a x hx
    rcases List.mem_cons.mp hx with rfl | h
    · exact le_trans (le_max_right a x.h) (le_foldMaxH (max a x.h) t)
    · exact ih (max a c.h) x h

lemma foldMaxH_attained (xs : List Candle) : ∀ (a : Int),
    foldMaxH a xs = a ∨ ∃ x ∈ xs, foldMaxH a xs = x.h := by
  induction xs with
  | nil => exact fun a => Or.inl rfl
  | cons c t ih =>
    intro a
    rcases ih (max a c.h) with h | ⟨x, hx, hEq⟩
    · rcases max_choice a c.h with h2 | h2
      · exact Or.inl (by rw [foldMaxH, List.foldl_cons]; rw [foldMaxH] at h; rw [h, h2])
      · exact Or.inr ⟨c, List.mem_cons_self c t, by rw [foldMaxH, List.foldl_cons]; rw [foldMaxH] at h; rw [h, h2]⟩
    · exact Or.inr ⟨x, List.mem_cons_of_mem c hx, hEq⟩

lemma foldMinL_le (a : Int) (xs : List Candle) : foldMinL a xs ≤ a := by
  induction xs generalizing a with
  | nil => exact le_refl a
  | cons c t ih => exact le_trans (ih (min a c.l)) (min_le_left a c.l)

lemma foldMinL_le_mem (xs : List Candle) : ∀ (a : Int), ∀ x ∈ xs, foldMinL a xs ≤ x.l := by
  induction xs with
  | nil => intro a x hx; cases hx
  | cons c t ih =>
    intro a x hx
    rcases List.mem_cons.mp hx with rfl | h
    · exact le_trans (foldMinL_le (min a x.l) t) (min_le_right a x.l)
    · exact ih (min a c.l) x h

lemma foldMinL_attained (xs : List Candle) : ∀ (a : Int),
    foldMinL a xs = a ∨ ∃ x ∈ xs, foldMinL a xs = x.l := by
  induction xs with
  | nil => exact fun a => Or.inl rfl
  | cons c t ih =>
    intro a
    rcases ih (min a c.l) with h | ⟨x, hx, hEq⟩
    · rcases min_choice a c.l with h2 | h2
      · exact Or.inl (by rw [foldMinL, List.foldl_cons]; rw [foldMinL] at h; rw [h, h2])
      · exact Or.inr ⟨c, List.mem_cons_self c t, by rw [foldMinL, List.foldl_cons]; rw [foldMinL] at h; rw [h, h2]⟩
    · exact Or.inr ⟨x, List.mem_cons_of_mem c hx, hEq⟩

lemma sumV_eq (xs : List Candle) : sumV xs = (xs.map Candle.v).sum := by
  have key : ∀ (l : List Candle) (a : Int), l.foldl (fun b c => b + c.v) a = a + (l.map Candle.v).sum := by
    intro l
    induction l with
    | nil => intro a; simp
    | cons c t ih => intro a; simp [List.foldl_cons, ih, List.map_cons, List.sum_cons]; ring
  simpa [sumV] using key xs 0

lemma finalFlush_batch (s : SyncState) : (finalFlush s).batch = [] := by
  cases hm : s.mode <;> simp [finalFlush, hm]

lemma finalFlush_file (s : SyncState) (hmw : s.mode = WMode.write → s.file = []) :
    (finalFlush s).file = s.file ++ s.batch := by
  cases hm : s.mode with
  | write =>
    have hf : s.file = [] := hmw hm
    rcases eq_or_ne s.batch [] with hb | hb
    · simp [finalFlush, hm, create_new_csv, hf, hb]
    · simp [finalFlush, hm, create_new_csv, hf, List.isEmpty_eq_false.mpr hb]
  | append =>
    rcases eq_or_ne s.batch [] with hb | hb
    · simp [finalFlush, hm, append_to_csv, hb]
    · simp [finalFlush, hm, append_to_csv, List.isEmpty_eq_false.mpr hb]

lemma finalFlush_cursor (s : SyncState) : (finalFlush s).cursor = s.cursor := by
  cases hm : s.mode <;> simp [finalFlush, hm]


lemma fetchStep_error_eq (te : Nat) (s : SyncState) (e : Unit) :
    fetchStep te s (Except.error e) = .retry 5 s := rfl

lemma fetchStep_ok_nil (te : Nat) (s : SyncState) :
    fetchStep te s (Except.ok []) =
      if te ≤ s.cursor + page_limit * duration_ms
      then .halt { s with cursor := s.cursor + page_limit * duration_ms }
      else .next { s with cursor := s.cursor + page_limit * duration_ms } := by
  simp [fetchStep]

lemma fetchStep_ok_filter_nil (te : Nat) (s : SyncState) (a : Candle) (q : List Candle)
    (hfil : (a :: q).filter (fun x => decide (x.ts < te)) = []) :
    fetchStep te s (Except.ok (a :: q)) = .halt s := by
  simp [fetchStep, hfil]

lemma fetchStep_ok_cons (te : Nat) (s : SyncState) (a : Candle) (q : List Candle)
    (b : Candle) (m : List Candle)
    (hfil : (a :: q).filter (fun x => decide (x.ts < te)) = b :: m) :
    fetchStep te s (Except.ok (a :: q)) =
      (if 50000 ≤ (s.batch ++ b :: m).length then
        match s.mode with
        | .write => .next {
            cursor := ((b :: m).getLastD dummyCandle).ts + duration_ms,
            batch := [], mode := .append,
            file := create_new_csv s.file (s.batch ++ b :: m) }
        | .append => .next {
            cursor := ((b :: m).getLastD dummyCandle).ts + duration_ms,
            batch := [], mode := .append,
            file := append_to_csv s.file (s.batch ++ b :: m) }
      else .next { s with
            cursor := ((b :: m).getLastD dummyCandle).ts + duration_ms,
            batch := s.batch ++ b :: m }) := by
  simp only [fetchStep]
  rw [hfil]
  simp

lemma fetchStep_ext (te : Nat) (s : SyncState) (resp : Except Unit (List Candle))
    (hmw : s.mode = WMode.write → s.file = []) :
    ((fetchStep te s resp).state.mode = WMode.write → (fetchStep te s resp).state.file = []) ∧
    ∃ ext : List Candle,
      (fetchStep te s resp).state.file ++ (fetchStep te s resp).state.batch
        = (s.file ++ s.batch) ++ ext ∧
      (∀ x ∈ ext, x.ts < te) ∧
      ((ext = [] ∧ ((fetchStep te s resp).state.cursor = s.cursor ∨
          (fetchStep te s resp).state.cursor = s.cursor + page_limit * duration_ms)) ∨
       (∃ p, resp = Except.ok p ∧ ext = p.filter (fun x => decide (x.ts < te)) ∧ ext ≠ [] ∧
          (fetchStep te s resp).state.cursor = (ext.getLastD dummyCandle).ts + duration_ms)) := by
  cases resp with
  | error e =>
    rw [fetchStep_error_eq]
    exact ⟨hmw, [], by simp [StepResult.state], by simp, Or.inl ⟨rfl, Or.inl rfl⟩⟩
  | ok p =>
    cases p with
    | nil =>
      rw [fetchStep_ok_nil]
      by_cases hte : te ≤ s.cursor + page_limit * duration_ms
      · rw [if_pos hte]
        exact ⟨hmw, [], by simp [StepResult.state], by simp, Or.inl ⟨rfl, Or.inr rfl⟩⟩
      · rw [if_neg hte]
        exact ⟨hmw, [], by simp [StepResult.state], by simp, Or.inl ⟨rfl, Or.inr rfl⟩⟩
    | cons a q =>
      cases hfil : (a :: q).filter (fun x => decide (x.ts < te)) with
      | nil =>
        rw [fetchStep_ok_filter_nil te s a q hfil]
        exact ⟨hmw, [], by simp [StepResult.state], by simp, Or.inl ⟨rfl, Or.inl rfl⟩⟩
      | cons b m =>
        have hmem_te : ∀ x ∈ b :: m, x.ts < te := by
          intro x hx
          rw [← hfil] at hx
          exact of_decide_eq_true (List.mem_filter.mp hx).2
        rw [fetchStep_ok_cons te s a q b m hfil]
        by_cases hlen : 50000 ≤ (s.batch ++ b :: m).length
        · rw [if_pos hlen]
          cases hm : s.mode with
          | write =>
            have hfe : s.file = [] := hmw hm
            have hne : (s.batch ++ b :: m) ≠ [] := by simp
            refine ⟨(by intro h; cases h), b :: m, ?_, hmem_te,
              Or.inr ⟨a :: q, rfl, hfil.symm, (by simp), rfl⟩⟩
            dsimp only [StepResult.state]
            simp [create_new_csv, List.isEmpty_eq_false.mpr hne, hfe]
          | append =>
            have hne : (s.batch ++ b :: m) ≠ [] := by simp
            refine ⟨(by intro h; cases h), b :: m, ?_, hmem_te,
              Or.inr ⟨a :: q, rfl, hfil.symm, (by simp), rfl⟩⟩
            dsimp only [StepResult.state]
            simp [append_to_csv, List.isEmpty_eq_false.mpr hne]
        · rw [if_neg hlen]
          exact ⟨hmw, b :: m, by simp [StepResult.state], hmem_te,
            Or.inr ⟨a :: q, rfl, hfil.symm, (by simp), rfl⟩⟩

lemma fetchStep_ok_no_retry (te : Nat) (s : SyncState) (p : List Candle) (d : Nat) (r : SyncState) :
    fetchStep te s (Except.ok p) ≠ .retry d r := by
  intro h
  cases p with
  | nil =>
    rw [fetchStep_ok_nil] at h
    by_cases hte : te ≤ s.cursor + page_limit * duration_ms
    · rw [if_pos hte] at h; cases h
    · rw [if_neg hte] at h; cases h
  | cons a q =>
    cases hfil : (a :: q).filter (fun x => decide (x.ts < te)) with
    | nil =>
      rw [fetchStep_ok_filter_nil te s a q hfil] at h
      cases h
    | cons b m =>
      rw [fetchStep_ok_cons te s a q b m hfil] at h
      by_cases hlen : 50000 ≤ (s.batch ++ b :: m).length
      · rw [if_pos hlen] at h
        cases hm : s.mode with
        | write => rw [hm] at h; cases h
        | append => rw [hm] at h; cases h
      · rw [if_neg hlen] at h; cases h

lemma fetchStep_next_advance (te : Nat) (s : SyncState) (p : List Candle)
    (hub : ∀ x ∈ p, s.cursor ≤ x.ts) (r : SyncState)
    (h : fetchStep te s (Except.ok p) = .next r) :
    s.cursor + duration_ms ≤ r.cursor := by
  cases p with
  | nil =>
    rw [fetchStep_ok_nil] at h
    by_cases hte : te ≤ s.cursor + page_limit * duration_ms
    · rw [if_pos hte] at h; cases h
    · rw [if_neg hte] at h
      cases h
      simp only [duration_ms, page_limit]
      omega
  | cons a q =>
    cases hfil : (a :: q).filter (fun x => decide (x.ts < te)) with
    | nil =>
      rw [fetchStep_ok_filter_nil te s a q hfil] at h
      cases h
    | cons b m =>
      have hlast : s.cursor ≤ ((b :: m).getLastD dummyCandle).ts := by
        have hmem : (b :: m).getLastD dummyCandle ∈ (a :: q).filter (fun x => decide (x.ts < te)) := by
          rw [hfil]
          exact getLastD_mem (b :: m) dummyCandle (by simp)
        exact hub _ (List.mem_of_mem_filter hmem)
      rw [fetchStep_ok_cons te s a q b m hfil] at h
      by_cases hlen : 50000 ≤ (s.batch ++ b :: m).length
      · rw [if_pos hlen] at h
        cases hm : s.mode with
        | write => rw [hm] at h; cases h; dsimp only; omega
        | append => rw [hm] at h; cases h; dsimp only; omega
      · rw [if_neg hlen] at h
        cases h
        dsimp only
        omega

lemma fetchStep_stateInv (te : Nat) (s : SyncState) (resp : Except Unit (List Candle))
    (hgood : ∀ p, resp = Except.ok p → (∀ x ∈ p, s.cursor ≤ x.ts) ∧ p.Pairwise candLt)
    (hinv : stateInv s) : stateInv (fetchStep te s resp).state := by
  obtain ⟨hpw, hlt, hmw⟩ := hinv
  obtain ⟨hmw2, ext, hcomb, hlt_te, hcases⟩ := fetchStep_ext te s resp hmw
  rcases hcases with ⟨hext, hcur⟩ | ⟨p, hp, hext, hne, hcur⟩
  · subst hext
    refine ⟨?_, ?_, hmw2⟩
    · rw [hcomb, List.append_nil]
      exact hpw
    · intro x hx
      rw [hcomb, List.append_nil] at hx
      rcases hcur with h | h
      · rw [h]; exact hlt x hx
      · rw [h]; exact lt_of_lt_of_le (hlt x hx) (Nat.le_add_right _ _)
  · obtain ⟨hub, hppw⟩ := hgood p hp
    have hextpw : ext.Pairwise candLt := by
      rw [hext]
      exact hppw.sublist (List.filter_sublist p)
    have hextub : ∀ x ∈ ext, s.cursor ≤ x.ts := by
      intro x hx
      rw [hext] at hx
      exact hub x (List.mem_of_mem_filter hx)
    have hlastub : s.cursor ≤ (ext.getLastD dummyCandle).ts :=
      hextub _ (getLastD_mem ext dummyCandle hne)
    have hd : 0 < duration_ms := by decide
    refine ⟨?_, ?_, hmw2⟩
    · rw [hcomb]
      refine List.pairwise_append.mpr ⟨hpw, hextpw, ?_⟩
      intro x hx y hy
      exact lt_of_lt_of_le (hlt x hx) (hextub y hy)
    · intro x hx
      rw [hcomb] at hx
      rw [hcur]
      rcases List.mem_append.mp hx with h | h
      · have h1 := hlt x h
        omega
      · have h2 := ts_le_getLastD ext dummyCandle hextpw x h
        omega

lemma stateInv_finalFlush (s : SyncState) (hinv : stateInv s) :
    ((finalFlush s).file ++ (finalFlush s).batch).Pairwise candLt ∧
    (finalFlush s).file = s.file ++ s.batch := by
  obtain ⟨hpw, _, hmw⟩ := hinv
  have hfile := finalFlush_file s hmw
  rw [finalFlush_batch, hfile, List.append_nil]
  exact ⟨hpw, rfl⟩

lemma runLoop_inv (fetch : Nat → Except Unit (List Candle)) (te : Nat)
    (hg : GoodPages fetch) : ∀ fuel (s : SyncState), stateInv s →
    ((runLoop fetch te fuel s).state.file ++ (runLoop fetch te fuel s).state.batch).Pairwise candLt := by
  intro fuel
  induction fuel with
  | zero =>
    intro s hinv
    by_cases hc : s.cursor < te
    · simpa [runLoop, hc] using hinv.1
    · simpa [runLoop, hc] using (stateInv_finalFlush s hinv).1
  | succ n ih =>
    intro s hinv
    by_cases hc : s.cursor < te
    · have hgood : ∀ p, fetch s.cursor = Except.ok p →
          (∀ x ∈ p, s.cursor ≤ x.ts) ∧ p.Pairwise candLt := fun p hp => hg s.cursor p hp
      have hstepinv := fetchStep_stateInv te s (fetch s.cursor) hgood hinv
      cases hstep : fetchStep te s (fetch s.cursor) with
      | halt s2 =>
        rw [hstep] at hstepinv
        simpa [runLoop, hc, hstep] using (stateInv_finalFlush s2 hstepinv).1
      | next s2 =>
        rw [hstep] at hstepinv
        simpa [runLoop, hc, hstep] using ih s2 hstepinv
      | retry d s2 =>
        rw [hstep] at hstepinv
        simpa [runLoop, hc, hstep] using ih s2 hstepinv
    · simpa [runLoop, hc] using (stateInv_finalFlush s hinv).1

lemma runLoop_lt_te (fetch : Nat → Except Unit (List Candle)) (te : Nat) :
    ∀ fuel (s : SyncState), (s.mode = WMode.write → s.file = []) →
    (∀ x ∈ s.file ++ s.batch, x.ts < te) →
    ∀ x ∈ (runLoop fetch te fuel s).state.file ++ (runLoop fetch te fuel s).state.batch, x.ts < te := by
  intro fuel
  induction fuel with
  | zero =>
    intro s hmw hlt
    by_cases hc : s.cursor < te
    · simpa [runLoop, hc] using hlt
    · have hfile := finalFlush_file s hmw
      intro x hx
      rw [show (runLoop fetch te 0 s).state = finalFlush s by simp [runLoop, hc],
        finalFlush_batch, hfile, List.append_nil] at hx
      exact hlt x hx
  | succ n ih =>
    intro s hmw hlt
    by_cases hc : s.cursor < te
    · obtain ⟨hmw2, ext, hcomb, hext_te, _⟩ := fetchStep_ext te s (fetch s.cursor) hmw
      have hlt2 : ∀ x ∈ (fetchStep te s (fetch s.cursor)).state.file ++
          (fetchStep te s (fetch s.cursor)).state.batch, x.ts < te := by
        intro x hx
        rw [hcomb] at hx
        rcases List.mem_append.mp hx with h | h
        · exact hlt x h
        · exact hext_te x h
      cases hstep : fetchStep te s (fetch s.cursor) with
      | halt s2 =>
        rw [hstep] at hmw2 hlt2
        have hfile := finalFlush_file s2 hmw2
        intro x hx
        rw [show (runLoop fetch te (n + 1) s).state = finalFlush s2 by simp [runLoop, hc, hstep],
          finalFlush_batch, hfile, List.append_nil] at hx
        exact hlt2 x hx
      | next s2 =>
        rw [hstep] at hmw2 hlt2
        intro x hx
        rw [show (runLoop fetch te (n + 1) s).state = (runLoop fetch te n s2).state by
          simp [runLoop, hc, hstep]] at hx
        exact ih s2 hmw2 hlt2 x hx
      | retry d s2 =>
        rw [hstep] at hmw2 hlt2
        intro x hx
        rw [show (runLoop fetch te (n + 1) s).state = (runLoop fetch te n s2).state by
          simp [runLoop, hc, hstep]] at hx
        exact ih s2 hmw2 hlt2 x hx
    · have hfile := finalFlush_file s hmw
      intro x hx
      rw [show (runLoop fetch te (n + 1) s).state = finalFlush s by simp [runLoop, hc],
        finalFlush_batch, hfile, List.append_nil] at hx
      exact hlt x hx

lemma fetchStep_head (te : Nat) (s : SyncState) (resp : Except Unit (List Candle)) (a : Candle)
    (hmw : s.mode = WMode.write → s.file = [])
    (hh : (s.file ++ s.batch).head? = some a) :
    ((fetchStep te s resp).state.file ++ (fetchStep te s resp).state.batch).head? = some a ∧
    ((fetchStep te s resp).state.mode = WMode.write → (fetchStep te s resp).state.file = []) := by
  obtain ⟨hmw2, ext, hcomb, _, _⟩ := fetchStep_ext te s resp hmw
  rw [hcomb]
  exact ⟨head?_append_left _ ext a hh, hmw2⟩

lemma runLoop_head (fetch : Nat → Except Unit (List Candle)) (te : Nat) :
    ∀ fuel (s : SyncState) (a : Candle), (s.mode = WMode.write → s.file = []) →
    (s.file ++ s.batch).head? = some a →
    ((runLoop fetch te fuel s).state.file ++ (runLoop fetch te fuel s).state.batch).head? = some a := by
  intro fuel
  induction fuel with
  | zero =>
    intro s a hmw hh
    by_cases hc : s.cursor < te
    · simpa [runLoop, hc] using hh
    · rw [show (runLoop fetch te 0 s).state = finalFlush s by simp [runLoop, hc],
        finalFlush_batch, finalFlush_file s hmw, List.append_nil]
      exact hh
  | succ n ih =>
    intro s a hmw hh
    by_cases hc : s.cursor < te
    · obtain ⟨hh2, hmw2⟩ := fetchStep_head te s (fetch s.cursor) a hmw hh
      cases hstep : fetchStep te s (fetch s.cursor) with
      | halt s2 =>
        rw [hstep] at hh2 hmw2
        rw [show (runLoop fetch te (n + 1) s).state = finalFlush s2 by simp [runLoop, hc, hstep],
          finalFlush_batch, finalFlush_file s2 hmw2, List.append_nil]
        exact hh2
      | next s2 =>
        rw [hstep] at hh2 hmw2
        rw [show (runLoop fetch te (n + 1) s).state = (runLoop fetch te n s2).state by
          simp [runLoop, hc, hstep]]
        exact ih s2 a hmw2 hh2
      | retry d s2 =>
        rw [hstep] at hh2 hmw2
        rw [show (runLoop fetch te (n + 1) s).state = (runLoop fetch te n s2).state by
          simp [runLoop, hc, hstep]]
        exact ih s2 a hmw2 hh2
    · rw [show (runLoop fetch te (n + 1) s).state = finalFlush s by simp [runLoop, hc],
        finalFlush_batch, finalFlush_file s hmw, List.append_nil]
      exact hh

lemma runLoop_completes (fetch : Nat → Except Unit (List Candle)) (te : Nat)
    (hwb : WellBehaved fetch) : ∀ fuel (s : SyncState),
    te - s.cursor ≤ fuel * duration_ms → (runLoop fetch te fuel s).completed = true := by
  intro fuel
  induction fuel with
  | zero =>
    intro s hb
    have hc : ¬ s.cursor < te := by omega
    simp [runLoop, hc]
  | succ n ih =>
    intro s hb
    by_cases hc : s.cursor < te
    · obtain ⟨p, hp, hub⟩ := hwb s.cursor
      cases hstep : fetchStep te s (fetch s.cursor) with
      | halt s2 => simp [runLoop, hc, hstep]
      | next s2 =>
        rw [hp] at hstep
        have hadv := fetchStep_next_advance te s p hub s2 hstep
        have hd : duration_ms = 60000 := rfl
        have hb2 : te - s2.cursor ≤ n * duration_ms := by
          rw [hd] at hadv hb ⊢
          omega
        rw [← hp] at hstep
        simpa [runLoop, hc, hstep] using ih s2 hb2
      | retry d s2 =>
        rw [hp] at hstep
        exact absurd hstep (fetchStep_ok_no_retry te s p d s2)
    · simp [runLoop, hc]

lemma runLoop_completed_batch (fetch : Nat → Except Unit (List Candle)) (te : Nat) :
    ∀ fuel (s : SyncState), (runLoop fetch te fuel s).completed = true →
    (runLoop fetch te fuel s).state.batch = [] := by
  intro fuel
  induction fuel with
  | zero =>
    intro s h
    by_cases hc : s.cursor < te
    · simp [runLoop, hc] at h
    · simp [runLoop, hc, finalFlush_batch]
  | succ n ih =>
    intro s h
    by_cases hc : s.cursor < te
    · cases hstep : fetchStep te s (fetch s.cursor) with
      | halt s2 => simp [runLoop, hc, hstep, finalFlush_batch]
      | next s2 =>
        rw [show (runLoop fetch te (n + 1) s).completed = (runLoop fetch te n s2).completed by
          simp [runLoop, hc, hstep]] at h
        rw [show (runLoop fetch te (n + 1) s).state = (runLoop fetch te n s2).state by
          simp [runLoop, hc, hstep]]
        exact ih s2 h
      | retry d s2 =>
        rw [show (runLoop fetch te (n + 1) s).completed = (runLoop fetch te n s2).completed by
          simp [runLoop, hc, hstep]] at h
        rw [show (runLoop fetch te (n + 1) s).state = (runLoop fetch te n s2).state by
          simp [runLoop, hc, hstep]]
        exact ih s2 h
    · simp [runLoop, hc, finalFlush_batch]

lemma mkFetch_wellBehaved (avail : List Candle) : WellBehaved (mkFetch avail) := by
  intro c
  refine ⟨_, rfl, ?_⟩
  intro x hx
  exact of_decide_eq_true (List.mem_filter.mp (List.take_subset _ _ hx)).2

lemma mkFetch_goodPages (avail : List Candle) (hpw : avail.Pairwise candLt) :
    GoodPages (mkFetch avail) := by
  intro c p hp
  have hpeq : (avail.filter (fun x => decide (c ≤ x.ts))).take page_limit = p := by
    simpa [mkFetch] using hp
  subst hpeq
  constructor
  · intro x hx
    exact of_decide_eq_true (List.mem_filter.mp (List.take_subset _ _ hx)).2
  · exact (hpw.sublist (List.filter_sublist avail)).sublist (List.take_sublist _ _)

lemma bucketStart_idem (d t : Nat) (hd : 0 < d) :
    bucketStart d (bucketStart d t) = bucketStart d t := by
  unfold bucketStart
  rw [Nat.mul_div_cancel _ hd]

lemma bucketMembers_sorted (d b : Nat) (rows : List Candle) (h : rows.Pairwise candLt) :
    (bucketMembers d b rows).Pairwise candLt :=
  h.sublist (List.filter_sublist rows)

lemma resample_map_ts (d : Nat) (rows : List Candle) :
    ∀ ks : List Nat, (∀ b ∈ ks, bucketMembers d b rows ≠ []) →
    ((ks.filterMap (fun b => aggBucket b (bucketMembers d b rows))).map Candle.ts) = ks := by
  intro ks
  induction ks with
  | nil => intro _; rfl
  | cons b kt ih =>
    intro hne
    have hb := hne b (List.mem_cons_self b kt)
    match hmem : bucketMembers d b rows with
    | [] => exact absurd hmem hb
    | x :: xs =>
      have hagg : aggBucket b (bucketMembers d b rows)
          = some ⟨b, x.o, foldMaxH x.h xs, foldMinL x.l xs,
                  ((x :: xs).getLastD x).c, sumV (x :: xs)⟩ := by
        rw [hmem]
        rfl
      simp only [List.filterMap_cons, hagg]
      rw [List.map_cons, ih (fun b2 hb2 => hne b2 (List.mem_cons_of_mem b hb2))]

/-- C1 counterexample: a stored file that parses validly (last line
timestamp 120000) but is stale for target end 1000000 is nevertheless
deleted by the sync pass, which restarts at the target start 0 in
write (create) mode and issues its first request at cursor 0 — at or
before the stored timestamp 120000 and different from the claimed
resume point 120000 + 60000. -/
theorem C1_counterexample :
    is_file_complete (some ⟨200, some 120000⟩) 1000000 = false ∧
    (syncSymbol (fun _ => Except.ok []) (some ⟨200, some 120000⟩) 0 1000000 1).deleted = true ∧
    (syncSymbol (fun _ => Except.ok []) (some ⟨200, some 120000⟩) 0 1000000 1).startMode = WMode.write ∧
    (syncSymbol (fun _ => Except.ok []) (some ⟨200, some 120000⟩) 0 1000000 1).startCursor = 0 ∧
    (syncSymbol (fun _ => Except.ok []) (some ⟨200, some 120000⟩) 0 1000000 1).requests = [0] ∧
    (0 : Nat) ≤ 120000 ∧ (0 : Nat) ≠ 120000 + duration_ms := by
  decide

/-- C1 (amended): whenever the stored file is not classified complete —
including a file that parses validly but is stale — the sync pass
deletes any existing file and rebuilds from scratch: the download
starts at the target start in write (create) mode; resume-with-append
never happens, and deletion is not limited to corrupt files. -/
theorem C1_rebuild_on_incomplete (fetch : Nat → Except Unit (List Candle))
    (file : Option FileInfo) (ts te fuel : Nat)
    (h : is_file_complete file te = false) :
    (syncSymbol fetch file ts te fuel).skipped = false ∧
    (syncSymbol fetch file ts te fuel).deleted = file.isSome ∧
    (syncSymbol fetch file ts te fuel).startCursor = ts ∧
    (syncSymbol fetch file ts te fuel).startMode = WMode.write ∧
    (syncSymbol fetch file ts te fuel).run = some (runLoop fetch te fuel (initState ts)) := by
  refine ⟨?_, ?_, ?_, ?_, ?_⟩ <;> simp [syncSymbol, h]

/-- C1 witness: the amended theorem applied to the stale-but-valid file
of the counterexample. -/
theorem C1_witness :
    (syncSymbol (fun _ => Except.ok []) (some ⟨200, some 120000⟩) 0 1000000 1).skipped = false ∧
    (syncSymbol (fun _ => Except.ok []) (some ⟨200, some 120000⟩) 0 1000000 1).deleted
      = (some (⟨200, some 120000⟩ : FileInfo)).isSome ∧
    (syncSymbol (fun _ => Except.ok []) (some ⟨200, some 120000⟩) 0 1000000 1).startCursor = 0 ∧
    (syncSymbol (fun _ => Except.ok []) (some ⟨200, some 120000⟩) 0 1000000 1).startMode = WMode.write ∧
    (syncSymbol (fun _ => Except.ok []) (some ⟨200, some 120000⟩) 0 1000000 1).run
      = some (runLoop (fun _ => Except.ok []) 1000000 1 (initState 0)) :=
  C1_rebuild_on_incomplete (fun _ => Except.ok []) (some ⟨200, some 120000⟩) 0 1000000 1 (by decide)

/-- C2: the completeness check succeeds exactly when the file exists
with at least the 100-byte minimum size and its last line parses to a
timestamp at least `target_end_ms - 120000`; every symbol classified
complete is skipped with no download run and zero network calls. -/
theorem C2_complete_iff_and_skip :
    (∀ (file : Option FileInfo) (te : Nat),
      is_file_complete file te = true ↔
        ∃ fi t, file = some fi ∧ 100 ≤ fi.size ∧ fi.lastLine = some t ∧ te - 120000 ≤ t) ∧
    (∀ (fetch : Nat → Except Unit (List Candle)) (file : Option FileInfo) (ts te fuel : Nat),
      is_file_complete file te = true →
        (syncSymbol fetch file ts te fuel).skipped = true ∧
        (syncSymbol fetch file ts te fuel).run = none ∧
        (syncSymbol fetch file ts te fuel).calls = 0) := by
  constructor
  · intro file te
    constructor
    · intro h
      rcases file with _ | fi
      · simp [is_file_complete] at h
      · by_cases hs : fi.size < 100
        · simp [is_file_complete, hs] at h
        · rcases hl : fi.lastLine with _ | t
          · simp [is_file_complete, hs, hl] at h
          · refine ⟨fi, t, rfl, by omega, hl, ?_⟩
            simp [is_file_complete, hs, hl] at h
            omega
    · rintro ⟨fi, t, rfl, hsize, hl, hge⟩
      have hs : ¬ fi.size < 100 := by omega
      simp [is_file_complete, hs, hl]
      omega
  · intro fetch file ts te fuel h
    refine ⟨?_, ?_, ?_⟩ <;> simp [syncSymbol, h, SymbolOutcome.calls]

/-- C2 witness: a file ending at 999000 against target end 1000000 is
complete (999000 is within the 120000 ms tolerance) and its symbol is
skipped without any network call. -/
theorem C2_witness :
    (syncSymbol (fun _ => Except.ok []) (some ⟨200, some 999000⟩) 0 1000000 3).skipped = true ∧
    (syncSymbol (fun _ => Except.ok []) (some ⟨200, some 999000⟩) 0 1000000 3).run = none ∧
    (syncSymbol (fun _ => Except.ok []) (some ⟨200, some 999000⟩) 0 1000000 3).calls = 0 :=
  C2_complete_iff_and_skip.2 (fun _ => Except.ok []) (some ⟨200, some 999000⟩) 0 1000000 3 (by decide)

/-- C3 counterexample: with the cursor at 200000, a misbehaving page
whose only candle has timestamp 100 makes the loop set the cursor to
60100 — strictly backwards, and not the claimed force-advance to
cursor + one page-width: the code has no force-advance guard. -/
theorem C3_counterexample :
    fetchStep 1000000 ⟨200000, [], WMode.write, []⟩ (Except.ok [⟨100, 1, 1, 1, 1, 1⟩]) =
      StepResult.next ⟨60100, [⟨100, 1, 1, 1, 1, 1⟩], WMode.write, []⟩ ∧
    (60100 : Nat) < 200000 ∧
    (60100 : Nat) ≠ 200000 + page_limit * duration_ms := by
  decide

/-- C3 (amended): the cursor strictly advances on every continuing
iteration — and the fetch loop terminates for every finite target
range — provided each page contains only candles at or after the
queried cursor; there is no force-advance guard in the code, so this
lower bound on the exchange is what guarantees progress. -/
theorem C3_advance_and_termination :
    (∀ (te : Nat) (s : SyncState) (p : List Candle) (r : SyncState),
      (∀ x ∈ p, s.cursor ≤ x.ts) → fetchStep te s (Except.ok p) = StepResult.next r →
      s.cursor + duration_ms ≤ r.cursor) ∧
    (∀ (fetch : Nat → Except Unit (List Candle)) (te : Nat), WellBehaved fetch →
      ∀ (fuel : Nat) (s : SyncState), te - s.cursor ≤ fuel * duration_ms →
      (runLoop fetch te fuel s).completed = true) :=
  ⟨fun te s p r hub h => fetchStep_next_advance te s p hub r h,
   fun fetch te hwb fuel s hb => runLoop_completes fetch te hwb fuel s hb⟩

/-- C3 witness: a well-behaved page advances the cursor by at least one
minute, and a loop over an empty upstream completes within its fuel. -/
theorem C3_witness :
    (0 : Nat) + duration_ms ≤ 60100 ∧
    (runLoop (fun _ => Except.ok []) 120000 2 (initState 0)).completed = true :=
  ⟨C3_advance_and_termination.1 1000000 (initState 0) [⟨100, 1, 1, 1, 1, 1⟩]
      ⟨60100, [⟨100, 1, 1, 1, 1, 1⟩], WMode.write, []⟩ (by decide) (by decide),
   C3_advance_and_termination.2 (fun _ => Except.ok []) 120000
      (fun c => ⟨[], rfl, by simp⟩) 2 (initState 0) (by decide)⟩

/-- C4: for any exchange whose pages are strictly increasing and start
at or after the queried cursor, the rows accumulated by the download
loop — the durable file and the in-memory batch — are strictly
increasing in timestamp with no duplicates, regardless of how many
50000-row flush boundaries occurred. -/
theorem C4_no_duplication (fetch : Nat → Except Unit (List Candle)) (te start fuel : Nat)
    (hg : GoodPages fetch) :
    ((runLoop fetch te fuel (initState start)).state.file).Pairwise candLt ∧
    ((runLoop fetch te fuel (initState start)).state.file ++
      (runLoop fetch te fuel (initState start)).state.batch).Pairwise candLt := by
  have hcomb := runLoop_inv fetch te hg fuel (initState start)
    ⟨by simp [initState], by simp [initState], fun _ => rfl⟩
  exact ⟨hcomb.sublist (List.sublist_append_left _ _), hcomb⟩

/-- C4 witness: the theorem at a one-candle upstream. -/
theorem C4_witness :
    ((runLoop (mkFetch [⟨100, 1, 1, 1, 1, 1⟩]) 200 2 (initState 0)).state.file).Pairwise candLt ∧
    ((runLoop (mkFetch [⟨100, 1, 1, 1, 1, 1⟩]) 200 2 (initState 0)).state.file ++
      (runLoop (mkFetch [⟨100, 1, 1, 1, 1, 1⟩]) 200 2 (initState 0)).state.batch).Pairwise candLt :=
  C4_no_duplication (mkFetch [⟨100, 1, 1, 1, 1, 1⟩]) 200 0 2
    (mkFetch_goodPages [⟨100, 1, 1, 1, 1, 1⟩] (by simp))

/-- C5 counterexample: appending a two-row batch to a one-row file can
be interrupted after the first row has reached the disk, leaving an
observable state that differs from the pre-write file, differs from
the completed write, and changes the probed last timestamp — the
write is a direct append with no temporary-name-and-rename swap, so it
is not crash-atomic. -/
theorem C5_counterexample :
    ([⟨0, 1, 1, 1, 1, 1⟩, ⟨60000, 1, 1, 1, 1, 1⟩] : List Candle) ∈
      appendCrashStates [⟨0, 1, 1, 1, 1, 1⟩] [⟨60000, 1, 1, 1, 1, 1⟩, ⟨120000, 1, 1, 1, 1, 1⟩] ∧
    ([⟨0, 1, 1, 1, 1, 1⟩, ⟨60000, 1, 1, 1, 1, 1⟩] : List Candle) ≠ [⟨0, 1, 1, 1, 1, 1⟩] ∧
    ([⟨0, 1, 1, 1, 1, 1⟩, ⟨60000, 1, 1, 1, 1, 1⟩] : List Candle) ≠
      append_to_csv [⟨0, 1, 1, 1, 1, 1⟩] [⟨60000, 1, 1, 1, 1, 1⟩, ⟨120000, 1, 1, 1, 1, 1⟩] ∧
    probe_last [⟨0, 1, 1, 1, 1, 1⟩, ⟨60000, 1, 1, 1, 1, 1⟩] ≠ probe_last [⟨0, 1, 1, 1, 1, 1⟩] := by
  decide

/-- C5 (amended): a completed `append_to_csv` call makes the whole
batch visible, but the write goes directly to the destination file, so
an interruption mid-call can leave a proper prefix of the batch
appended — a state equal neither to the old file nor to the completed
write; crash-atomicity is not provided. -/
theorem C5_direct_write_not_atomic (file data : List Candle) (h2 : 2 ≤ data.length) :
    append_to_csv file data = file ++ data ∧
    (file ++ data.take 1) ∈ appendCrashStates file data ∧
    (file ++ data.take 1) ≠ file ∧
    (file ++ data.take 1) ≠ append_to_csv file data := by
  have hne : data ≠ [] := by
    intro h
    rw [h] at h2
    simp at h2
  have happ : append_to_csv file data = file ++ data := by
    simp [append_to_csv, List.isEmpty_eq_false.mpr hne]
  have htake1 : (data.take 1).length = 1 := by
    rw [List.length_take]
    omega
  refine ⟨happ, ?_, ?_, ?_⟩
  · exact List.mem_map.mpr ⟨1, List.mem_range.mpr (by omega), rfl⟩
  · intro h
    have := congrArg List.length h
    rw [List.length_append, htake1] at this
    omega
  · rw [happ]
    intro h
    have := congrArg List.length h
    rw [List.length_append, List.length_append, htake1] at this
    omega

/-- C5 witness: the amended theorem at the counterexample's file and
batch. -/
theorem C5_witness :
    append_to_csv [⟨0, 1, 1, 1, 1, 1⟩] [⟨60000, 1, 1, 1, 1, 1⟩, ⟨120000, 1, 1, 1, 1, 1⟩]
      = [⟨0, 1, 1, 1, 1, 1⟩] ++ [⟨60000, 1, 1, 1, 1, 1⟩, ⟨120000, 1, 1, 1, 1, 1⟩] ∧
    ([⟨0, 1, 1, 1, 1, 1⟩] ++ ([⟨60000, 1, 1, 1, 1, 1⟩, ⟨120000, 1, 1, 1, 1, 1⟩] : List Candle).take 1) ∈
      appendCrashStates [⟨0, 1, 1, 1, 1, 1⟩] [⟨60000, 1, 1, 1, 1, 1⟩, ⟨120000, 1, 1, 1, 1, 1⟩] ∧
    ([⟨0, 1, 1, 1, 1, 1⟩] ++ ([⟨60000, 1, 1, 1, 1, 1⟩, ⟨120000, 1, 1, 1, 1, 1⟩] : List Candle).take 1) ≠
      [⟨0, 1, 1, 1, 1, 1⟩] ∧
    ([⟨0, 1, 1, 1, 1, 1⟩] ++ ([⟨60000, 1, 1, 1, 1, 1⟩, ⟨120000, 1, 1, 1, 1, 1⟩] : List Candle).take 1) ≠
      append_to_csv [⟨0, 1, 1, 1, 1, 1⟩] [⟨60000, 1, 1, 1, 1, 1⟩, ⟨120000, 1, 1, 1, 1, 1⟩] :=
  C5_direct_write_not_atomic [⟨0, 1, 1, 1, 1, 1⟩]
    [⟨60000, 1, 1, 1, 1, 1⟩, ⟨120000, 1, 1, 1, 1, 1⟩] (by decide)

/-- C6: whatever the exchange returns, every candle retained by the
download loop — in the durable file or the pending batch — has
timestamp strictly below the target end, because each page is filtered
with `ts < target_end_ms` before being added; and a non-empty page
whose candles are all at or past the target end (empty after the
filter) stops pagination with the state unchanged. -/
theorem C6_filter_and_stop :
    (∀ (fetch : Nat → Except Unit (List Candle)) (te fuel start : Nat),
      ∀ x ∈ (runLoop fetch te fuel (initState start)).state.file ++
        (runLoop fetch te fuel (initState start)).state.batch, x.ts < te) ∧
    (∀ (te : Nat) (s : SyncState) (p : List Candle), p ≠ [] →
      p.filter (fun x => decide (x.ts < te)) = [] →
      fetchStep te s (Except.ok p) = StepResult.halt s) := by
  constructor
  · intro fetch te fuel start
    exact runLoop_lt_te fetch te fuel (initState start) (fun _ => rfl) (by simp [initState])
  · intro te s p hne hfil
    cases p with
    | nil => exact absurd rfl hne
    | cons a q => exact fetchStep_ok_filter_nil te s a q hfil

/-- C6 witness: a page whose single candle is at timestamp 7 against
target end 5 is discarded entirely and pagination halts. -/
theorem C6_witness :
    fetchStep 5 (initState 0) (Except.ok [⟨7, 1, 1, 1, 1, 1⟩]) = StepResult.halt (initState 0) :=
  C6_filter_and_stop.2 5 (initState 0) [⟨7, 1, 1, 1, 1, 1⟩] (by decide) (by decide)

/-- C7: an empty page advances the cursor by one page-width
(`page_limit * duration_ms`, i.e. 1000 minutes) and stops exactly when
that advance reaches or passes the target end; and against an upstream
whose earliest candle is `a0` (at or after the target start `S`,
inside the target range), the sync completes and the resulting file's
first candle is `a0` — the first instant the upstream has data, not
`S`. -/
theorem C7_empty_page_and_gap :
    (∀ (te : Nat) (s : SyncState),
      fetchStep te s (Except.ok []) =
        if te ≤ s.cursor + page_limit * duration_ms
        then StepResult.halt { s with cursor := s.cursor + page_limit * duration_ms }
        else StepResult.next { s with cursor := s.cursor + page_limit * duration_ms }) ∧
    (∀ (a0 : Candle) (rest : List Candle) (S te fuel : Nat),
      (a0 :: rest).Pairwise candLt → S ≤ a0.ts → a0.ts < te →
      te - S ≤ (fuel + 1) * duration_ms →
      (runLoop (mkFetch (a0 :: rest)) te (fuel + 1) (initState S)).completed = true ∧
      ((runLoop (mkFetch (a0 :: rest)) te (fuel + 1) (initState S)).state.file).head? = some a0) := by
  constructor
  · intro te s
    exact fetchStep_ok_nil te s
  · intro a0 rest S te fuel hpw hSa hlt hb
    have hc0 : (initState S).cursor < te := lt_of_le_of_lt hSa hlt
    have hfe : (a0 :: rest).filter (fun x => decide (S ≤ x.ts)) = a0 :: rest := by
      apply List.filter_eq_self.mpr
      intro x hx
      apply decide_eq_true
      rcases List.mem_cons.mp hx with rfl | hxr
      · exact hSa
      · exact le_of_lt (lt_of_le_of_lt hSa ((List.pairwise_cons.mp hpw).1 x hxr))
    have hresp : mkFetch (a0 :: rest) ((initState S).cursor) = Except.ok (a0 :: rest.take 999) := by
      have hS : (initState S).cursor = S := rfl
      have h1000 : page_limit = 999 + 1 := rfl
      simp only [mkFetch, hS, hfe, h1000, List.take_succ_cons]
    have hfilpage : (a0 :: rest.take 999).filter (fun x => decide (x.ts < te))
        = a0 :: (rest.take 999).filter (fun x => decide (x.ts < te)) := by
      rw [List.filter_cons, if_pos (decide_eq_true hlt)]
    set mf := (rest.take 999).filter (fun x => decide (x.ts < te)) with hmfdef
    have hmem_ge : ∀ x ∈ a0 :: mf, S ≤ x.ts := by
      intro x hx
      rcases List.mem_cons.mp hx with rfl | hxm
      · exact hSa
      · rw [hmfdef] at hxm
        have hxr : x ∈ rest := List.take_subset 999 rest (List.mem_of_mem_filter hxm)
        exact le_of_lt (lt_of_le_of_lt hSa ((List.pairwise_cons.mp hpw).1 x hxr))
    have hmlen : mf.length ≤ 999 := by
      rw [hmfdef]
      exact le_trans (List.length_filter_le _ _) (List.length_take_le 999 rest)
    have hlen : ¬ 50000 ≤ ((initState S).batch ++ a0 :: mf).length := by
      simp only [initState, List.nil_append, List.length_cons]
      omega
    set s1 : SyncState := { cursor := ((a0 :: mf).getLastD dummyCandle).ts + duration_ms,
                            batch := a0 :: mf, mode := WMode.write, file := [] } with hs1def
    have hstep : fetchStep te (initState S) (mkFetch (a0 :: rest) ((initState S).cursor))
        = StepResult.next s1 := by
      rw [hresp, fetchStep_ok_cons te (initState S) a0 (rest.take 999) a0 mf hfilpage,
        if_neg hlen]
      rfl
    have hS1 : S + duration_ms ≤ s1.cursor := by
      have hmem := getLastD_mem (a0 :: mf) dummyCandle (by simp)
      have hge := hmem_ge _ hmem
      simp only [hs1def]
      omega
    have hcompleted : (runLoop (mkFetch (a0 :: rest)) te fuel s1).completed = true := by
      apply runLoop_completes _ te (mkFetch_wellBehaved _) fuel s1
      have hd : duration_ms = 60000 := rfl
      rw [hd] at hS1 hb ⊢
      omega
    have hhead : ((runLoop (mkFetch (a0 :: rest)) te fuel s1).state.file ++
        (runLoop (mkFetch (a0 :: rest)) te fuel s1).state.batch).head? = some a0 := by
      apply runLoop_head _ te fuel s1 a0
      · intro _
        rfl
      · simp [hs1def]
    have hbatch := runLoop_completed_batch (mkFetch (a0 :: rest)) te fuel s1 hcompleted
    have hconn_state : (runLoop (mkFetch (a0 :: rest)) te (fuel + 1) (initState S)).state
        = (runLoop (mkFetch (a0 :: rest)) te fuel s1).state := by
      simp [runLoop, hc0, hstep]
    have hconn_comp : (runLoop (mkFetch (a0 :: rest)) te (fuel + 1) (initState S)).completed
        = (runLoop (mkFetch (a0 :: rest)) te fuel s1).completed := by
      simp [runLoop, hc0, hstep]
    constructor
    · rw [hconn_comp]
      exact hcompleted
    · rw [hconn_state]
      rw [hbatch, List.append_nil] at hhead
      exact hhead

/-- C7 witness: against an upstream whose only candle is at timestamp
100, a sync of target range 0 to 200 completes and stores that candle
first. -/
theorem C7_witness :
    (runLoop (mkFetch [⟨100, 1, 1, 1, 1, 1⟩]) 200 2 (initState 0)).completed = true ∧
    ((runLoop (mkFetch [⟨100, 1, 1, 1, 1, 1⟩]) 200 2 (initState 0)).state.file).head?
      = some ⟨100, 1, 1, 1, 1, 1⟩ :=
  C7_empty_page_and_gap.2 ⟨100, 1, 1, 1, 1, 1⟩ [] 0 200 1 (by simp) (by decide) (by decide) (by decide)

/-- C9: the resampler buckets the base rows into non-overlapping
windows aligned to the target duration (every output timestamp is its
own bucket start) and, for each non-empty bucket, emits exactly one
candle whose open is the earliest member's open, high is an upper
bound attained by some member's high, low is a lower bound attained by
some member's low, close is the latest member's close, and volume is
the sum of the members' volumes; buckets with no members produce no
row, and distinct output rows have distinct bucket timestamps. -/
theorem C9_resample_correct (d : Nat) (rows : List Candle) (hd : 0 < d)
    (hsorted : rows.Pairwise candLt) :
    (∀ y ∈ resample_buffer d rows,
      bucketMembers d y.ts rows ≠ [] ∧
      bucketStart d y.ts = y.ts ∧
      (∃ f ∈ bucketMembers d y.ts rows,
        (∀ x ∈ bucketMembers d y.ts rows, f.ts ≤ x.ts) ∧ y.o = f.o) ∧
      (∀ x ∈ bucketMembers d y.ts rows, x.h ≤ y.h) ∧
      (∃ x ∈ bucketMembers d y.ts rows, y.h = x.h) ∧
      (∀ x ∈ bucketMembers d y.ts rows, y.l ≤ x.l) ∧
      (∃ x ∈ bucketMembers d y.ts rows, y.l = x.l) ∧
      (∃ g ∈ bucketMembers d y.ts rows,
        (∀ x ∈ bucketMembers d y.ts rows, x.ts ≤ g.ts) ∧ y.c = g.c) ∧
      y.v = ((bucketMembers d y.ts rows).map Candle.v).sum) ∧
    ((resample_buffer d rows).map Candle.ts).Nodup ∧
    (∀ b c0, c0 ∈ rows → bucketStart d c0.ts = b →
      ∃ y ∈ resample_buffer d rows, y.ts = b) := by
  have hkeys : ∀ b ∈ (rows.map (fun c => bucketStart d c.ts)).dedup,
      bucketMembers d b rows ≠ [] := by
    intro b hb
    rcases List.mem_map.mp (List.mem_dedup.mp hb) with ⟨c0, hc0, hbc⟩
    exact List.ne_nil_of_mem (List.mem_filter.mpr ⟨hc0, decide_eq_true hbc⟩)
  have hmap : ((resample_buffer d rows).map Candle.ts)
      = (rows.map (fun c => bucketStart d c.ts)).dedup :=
    resample_map_ts d rows _ hkeys
  refine ⟨?_, ?_, ?_⟩
  · intro y hy
    simp only [resample_buffer] at hy
    rcases List.mem_filterMap.mp hy with ⟨b, hbk, hagg⟩
    rcases hmem : bucketMembers d b rows with _ | ⟨x, xs⟩
    · rw [hmem] at hagg
      cases hagg
    · rw [hmem] at hagg
      have hy2 : y = ⟨b, x.o, foldMaxH x.h xs, foldMinL x.l xs,
          ((x :: xs).getLastD x).c, sumV (x :: xs)⟩ := by
        have h2 := hagg
        simp only [aggBucket, Option.some.injEq] at h2
        exact h2.symm
      subst hy2
      dsimp only
      have hsmem : (x :: xs).Pairwise candLt := by
        rw [← hmem]
        exact bucketMembers_sorted d b rows hsorted
      rw [hmem]
      refine ⟨by simp, ?_, ?_, ?_, ?_, ?_, ?_, ?_, ?_⟩
      · rcases List.mem_map.mp (List.mem_dedup.mp hbk) with ⟨c0, _, hbc⟩
        rw [← hbc]
        exact bucketStart_idem d c0.ts hd
      · refine ⟨x, List.mem_cons_self x xs, ?_, rfl⟩
        intro x2 hx2
        rcases List.mem_cons.mp hx2 with rfl | hx2m
        · exact le_refl _
        · exact le_of_lt ((List.pairwise_cons.mp hsmem).1 x2 hx2m)
      · intro x2 hx2
        rcases List.mem_cons.mp hx2 with rfl | hx2m
        · exact le_foldMaxH x2.h xs
        · exact mem_le_foldMaxH xs x.h x2 hx2m
      · rcases foldMaxH_attained xs x.h with h | ⟨x2, hx2, hEq⟩
        · exact ⟨x, List.mem_cons_self x xs, h⟩
        · exact ⟨x2, List.mem_cons_of_mem x hx2, hEq⟩
      · intro x2 hx2
        rcases List.mem_cons.mp hx2 with rfl | hx2m
        · exact foldMinL_le x2.l xs
        · exact foldMinL_le_mem xs x.l x2 hx2m
      · rcases foldMinL_attained xs x.l with h | ⟨x2, hx2, hEq⟩
        · exact ⟨x, List.mem_cons_self x xs, h⟩
        · exact ⟨x2, List.mem_cons_of_mem x hx2, hEq⟩
      · refine ⟨(x :: xs).getLastD x, getLastD_mem (x :: xs) x (by simp), ?_, rfl⟩
        exact ts_le_getLastD (x :: xs) x hsmem
      · exact sumV_eq (x :: xs)
  · rw [hmap]
    exact List.nodup_dedup _
  · intro b c0 hc0 hbc
    have hbk : b ∈ ((resample_buffer d rows).map Candle.ts) := by
      rw [hmap]
      exact List.mem_dedup.mpr (List.mem_map.mpr ⟨c0, hc0, hbc⟩)
    rcases List.mem_map.mp hbk with ⟨y, hy, hyts⟩
    exact ⟨y, hy, hyts⟩

/-- C9 witness: resampling a strictly increasing three-candle series
to two-millisecond buckets yields rows with pairwise distinct bucket
timestamps. -/
theorem C9_witness :
    ((resample_buffer 2 [⟨0, 1, 1, 1, 1, 1⟩, ⟨1, 2, 2, 2, 2, 2⟩, ⟨2, 3, 3, 3, 3, 3⟩]).map
      Candle.ts).Nodup :=
  (C9_resample_correct 2 [⟨0, 1, 1, 1, 1, 1⟩, ⟨1, 2, 2, 2, 2, 2⟩, ⟨2, 3, 3, 3, 3, 3⟩]
    (by decide) (by decide)).2.1

/-- C10: the export endpoint strips and uppercases the symbol query and
normalizes `-` and `_` to `/`, so `btc-usdt`, `BTC_USDT` and
`BTC/USDT` all resolve to the configured symbol `BTC/USDT` and hence
to the same series file `btc1m.csv`; and when neither the uppercased
input nor its normalized form is configured, the endpoint returns the
error payload listing the available symbols, identically for every
file-system state — it neither reads nor modifies any series file. -/
theorem C10_symbol_normalization :
    resolveSymbol "btc-usdt".data = some "BTC/USDT".data ∧
    resolveSymbol "BTC_USDT".data = some "BTC/USDT".data ∧
    resolveSymbol "BTC/USDT".data = some "BTC/USDT".data ∧
    fileOf "BTC/USDT".data = "btc1m.csv".data ∧
    (∀ symbol : PyStr, resolveSymbol symbol = none →
      ∀ (fs fs2 : PyStr → Option (List Candle)) (d : Nat) (tf : PyStr),
        export_data fs d symbol tf = ExportResponse.errorNotFound SYMBOLS ∧
        export_data fs d symbol tf = export_data fs2 d symbol tf) := by
  refine ⟨by decide, by decide, by decide, by decide, ?_⟩
  intro symbol hnone fs fs2 d tf
  constructor <;> simp [export_data, hnone]

/-- C10 witness: an unconfigured symbol gets the not-found payload, and
the response does not depend on the stored files. -/
theorem C10_witness :
    export_data (fun _ => none) 60000 "FOO".data "1m".data
      = ExportResponse.errorNotFound SYMBOLS ∧
    export_data (fun _ => none) 60000 "FOO".data "1m".data
      = export_data (fun _ => some []) 60000 "FOO".data "1m".data :=
  C10_symbol_normalization.2.2.2.2 "FOO".data (by decide)
    (fun _ => none) (fun _ => some []) 60000 "1m".data

lemma fetchStepF_ok_cons (te : Nat) (writeOk : Nat → Bool) (s : SyncStateF) (a : Candle)
    (q : List Candle) (b : Candle) (m : List Candle)
    (hfil : (a :: q).filter (fun x => decide (x.ts < te)) = b :: m) :
    fetchStepF te writeOk s (Except.ok (a :: q)) =
      (if 50000 ≤ (s.batch ++ b :: m).length then
        if writeOk s.writes then
          match s.mode with
          | .write => .next {
              cursor := ((b :: m).getLastD dummyCandle).ts + duration_ms,
              batch := [], mode := .append,
              file := create_new_csv s.file (s.batch ++ b :: m), writes := s.writes + 1 }
          | .append => .next {
              cursor := ((b :: m).getLastD dummyCandle).ts + duration_ms,
              batch := [], mode := .append,
              file := append_to_csv s.file (s.batch ++ b :: m), writes := s.writes + 1 }
        else .retry 5 {
            cursor := ((b :: m).getLastD dummyCandle).ts + duration_ms,
            batch := s.batch ++ b :: m, mode := s.mode,
            file := s.file, writes := s.writes + 1 }
      else .next { s with
          cursor := ((b :: m).getLastD dummyCandle).ts + duration_ms,
          batch := s.batch ++ b :: m }) := by
  simp only [fetchStepF]
  rw [hfil]
  simp

/-- C8 counterexample: a flush that raises with the batch at the
50000-row threshold is caught, but only after line 137 has already
moved the cursor to the fetched page's last timestamp plus one minute
(here 0 to 60100), so the retry is not at the same cursor position;
and a final-flush exception — raised outside the loop's try block —
aborts the whole pass: with two symbols whose store writes fail, the
pass dies during the first symbol and the second is never attempted. -/
theorem C8_counterexample :
    fetchStepF 1000000 (fun _ => false)
        ⟨0, List.replicate 49999 dummyCandle, WMode.write, [], 0⟩
        (Except.ok [⟨100, 1, 1, 1, 1, 1⟩])
      = StepResultF.retry 5
          ⟨60100, List.replicate 49999 dummyCandle ++ [⟨100, 1, 1, 1, 1, 1⟩], WMode.write, [], 1⟩ ∧
    (60100 : Nat) ≠ 0 ∧
    runSymbols (fun _ _ => Except.ok [⟨1767225540000, 1, 1, 1, 1, 1⟩]) (fun _ _ => false)
        (fun _ => none) 2 ["A".data, "B".data] = ([], true) := by
  refine ⟨?_, by decide, by decide⟩
  have hfil : ([⟨100, 1, 1, 1, 1, 1⟩] : List Candle).filter (fun x => decide (x.ts < 1000000))
      = ⟨100, 1, 1, 1, 1, 1⟩ :: ([] : List Candle) := by decide
  have hlen : 50000 ≤
      ((⟨0, List.replicate 49999 dummyCandle, WMode.write, [], 0⟩ : SyncStateF).batch
        ++ ⟨100, 1, 1, 1, 1, 1⟩ :: ([] : List Candle)).length := by
    rw [show (⟨0, List.replicate 49999 dummyCandle, WMode.write, [], 0⟩ : SyncStateF).batch
        = List.replicate 49999 dummyCandle from rfl]
    rw [List.length_append, List.length_replicate, List.length_cons, List.length_nil]
    try omega
  rw [fetchStepF_ok_cons 1000000 (fun _ => false)
      ⟨0, List.replicate 49999 dummyCandle, WMode.write, [], 0⟩
      ⟨100, 1, 1, 1, 1, 1⟩ [] ⟨100, 1, 1, 1, 1, 1⟩ [] hfil, if_pos hlen]
  try rfl

/-- C8 (amended): a fetch exception is caught and retried after a
fixed 5-second backoff with the state — cursor included — unchanged;
an in-loop flush exception is also caught with the same backoff and
the loop continues, but its retry happens with the cursor already
advanced to the fetched page's last timestamp plus one minute and the
batch retained, not at the pre-fetch cursor; a final-flush exception
is raised outside the loop's exception handler, so it terminates the
whole sync pass and no later symbol is attempted; and only when no
uncaught exception occurs does a pass attempt every symbol in order. -/
theorem C8_error_paths :
    (∀ (te : Nat) (writeOk : Nat → Bool) (s : SyncStateF) (e : Unit),
      fetchStepF te writeOk s (Except.error e) = StepResultF.retry 5 s) ∧
    (∀ (te : Nat) (writeOk : Nat → Bool) (s : SyncStateF) (p : List Candle)
       (b : Candle) (m : List Candle),
      p.filter (fun x => decide (x.ts < te)) = b :: m →
      50000 ≤ (s.batch ++ b :: m).length →
      writeOk s.writes = false →
      fetchStepF te writeOk s (Except.ok p) = StepResultF.retry 5 {
        cursor := ((b :: m).getLastD dummyCandle).ts + duration_ms,
        batch := s.batch ++ b :: m, mode := s.mode,
        file := s.file, writes := s.writes + 1 }) ∧
    (∀ (fetchFor : PyStr → Nat → Except Unit (List Candle))
       (writeOkFor : PyStr → Nat → Bool) (files : PyStr → Option FileInfo)
       (fuel : Nat) (sym : PyStr) (rest : List PyStr),
      syncSymbolF (fetchFor sym) (writeOkFor sym) (files sym)
        target_start_ms target_end_ms fuel = Except.error () →
      runSymbols fetchFor writeOkFor files fuel (sym :: rest) = ([], true)) ∧
    (∀ (fetchFor : PyStr → Nat → Except Unit (List Candle))
       (writeOkFor : PyStr → Nat → Bool) (files : PyStr → Option FileInfo)
       (fuel : Nat) (syms : List PyStr),
      (runSymbols fetchFor writeOkFor files fuel syms).2 = false →
      (runSymbols fetchFor writeOkFor files fuel syms).1.map Prod.fst = syms) ∧
    (∀ (fetchFor : PyStr → Nat → Except Unit (List Candle))
       (writeOkFor : PyStr → Nat → Bool) (files : PyStr → Option FileInfo) (fuel : Nat),
      fetch_workerF fetchFor writeOkFor files fuel
        = runSymbols fetchFor writeOkFor files fuel SYMBOLS) := by
  refine ⟨fun te writeOk s e => rfl, ?_, ?_, ?_, fun _ _ _ _ => rfl⟩
  · intro te writeOk s p b m hfil hlen hwf
    cases p with
    | nil => simp at hfil
    | cons a q =>
      rw [fetchStepF_ok_cons te writeOk s a q b m hfil, if_pos hlen, hwf]
      simp
  · intro fetchFor writeOkFor files fuel sym rest herr
    simp [runSymbols, herr]
  · intro fetchFor writeOkFor files fuel syms
    induction syms with
    | nil => intro _; rfl
    | cons sym rest ih =>
      intro hab
      cases hrun : syncSymbolF (fetchFor sym) (writeOkFor sym) (files sym)
          target_start_ms target_end_ms fuel with
      | error e =>
        rw [show runSymbols fetchFor writeOkFor files fuel (sym :: rest) = ([], true) by
          simp [runSymbols, hrun]] at hab
        simp at hab
      | ok out =>
        have hcons : runSymbols fetchFor writeOkFor files fuel (sym :: rest)
            = ((sym, out) :: (runSymbols fetchFor writeOkFor files fuel rest).1,
               (runSymbols fetchFor writeOkFor files fuel rest).2) := by
          simp [runSymbols, hrun]
        rw [hcons] at hab ⊢
        simp only [List.map_cons] at hab ⊢
        rw [ih hab]

/-- C8 witness: the abort clause of the amended theorem at the
concrete two-symbol scenario of the counterexample. -/
theorem C8_witness :
    runSymbols (fun _ _ => Except.ok [⟨1767225540000, 1, 1, 1, 1, 1⟩]) (fun _ _ => false)
        (fun _ => none) 2 ("A".data :: ["B".data]) = ([], true) :=
  C8_error_paths.2.2.1 (fun _ _ => Except.ok [⟨1767225540000, 1, 1, 1, 1, 1⟩]) (fun _ _ => false)
    (fun _ => none) 2 "A".data ["B".data] (by decide)

/-- C9 counterexample: the `1w` and `3d` timeframes violate the
claimed bucketing.  A single candle at epoch instant 0 resampled
weekly is emitted with timestamp 259200000 — the Sunday-midnight END
of its right-closed bin, which exceeds the member's timestamp and is
not a multiple of the weekly duration; and a single candle at
86400000 (midnight of epoch day 1) resampled to three days is labeled
86400000 — anchored at the series' first day, not a multiple of three
days — where the epoch-floored model emits 0 instead. -/
theorem C9_counterexample :
    resample_weekly [⟨0, 1, 1, 1, 1, 1⟩] = [⟨259200000, 1, 1, 1, 1, 1⟩] ∧
    ¬ (259200000 : Nat) ≤ 0 ∧
    bucketStart (7 * oneDay_ms) 259200000 ≠ 259200000 ∧
    resample_startday (3 * oneDay_ms) [⟨86400000, 2, 2, 2, 2, 2⟩]
      = [⟨86400000, 2, 2, 2, 2, 2⟩] ∧
    bucketStart (3 * oneDay_ms) 86400000 ≠ 86400000 ∧
    resample_buffer (3 * oneDay_ms) [⟨86400000, 2, 2, 2, 2, 2⟩] = [⟨0, 2, 2, 2, 2, 2⟩] := by
  decide
